import Mathlib

/-!
Shallow embedding of the data-availability (DA) storage layer of
InfinityVM/beacon-kit (`da/store/store.go` and companions).

The repository contains two variants of the availability store:

* Variant 1 (`Store`, flat import paths): `IsDataAvailable` loops over the
  block's commitments querying `IndexDB.Has`; `Persist` stores each sidecar
  strictly sequentially and writes no slot index record; `GetBlobsFromStore`
  reads the `slot_commitments` index record and decodes it with the
  `SlotCommitments` SSZ codec.

* Variant 2 (`Store[BeaconBlockBodyT]`, `mod/` import paths): `Persist`
  fans every per-sidecar write out to its own goroutine, then (on success)
  serializes the ordered commitment list as one count byte followed by the
  concatenated 48-byte commitments and writes it under the reserved
  `"slot_commitments"` key; `GetBlobsFromStore` reads that record back and
  decodes it by unchecked slicing.

Machine bytes are modelled as `Nat`s in a `List`; the byte-ness only matters
for the index codec's count byte, where the `byte(len)` truncation is modelled
as `% 256`.  The backend `IndexDB` is modelled as a map from (slot, key) to an
optional value, plus abstract `get`/`has` functions where a claim quantifies
over arbitrary backend behaviour.  Go panics (nil dereference, out-of-range
indexing/slicing) are modelled by an explicit `panicked` result constructor,
distinct from returned errors.
-/

/-- A byte string: each element is one byte (a `Nat`; `% 256` is applied
exactly where the Go code truncates). -/
abbrev Bytes := List Nat

/-- The reserved ASCII index key `"slot_commitments"` (16 bytes), from
`const SlotCommitmentsKey = "slot_commitments"` / the literal in the second
variant. -/
def slotCommitmentsKey : Bytes :=
  [115, 108, 111, 116, 95, 99, 111, 109, 109, 105, 116, 109, 101, 110, 116, 115]

/-- Constant `COMMITMENT_SIZE = 48`: length of a KZG commitment in bytes. -/
def COMMITMENT_SIZE : Nat := 48

/-- An error returned by the backing `IndexDB` (`Has`/`Get`/`Set` return a Go
`error`): either a missing key or any other backend fault. -/
inductive DBErr where
  | notFound
  | ioFault (code : Nat)
deriving DecidableEq

/-- A Go `error` value surfaced by the store itself. -/
inductive GoError where
  | dbErr (e : DBErr)
  | decodeFailed
deriving DecidableEq

/-- Result of a Go call that may return a value, return an error, or panic. -/
inductive GoResult (α : Type) where
  | ok (val : α)
  | error (e : GoError)
  | panicked (msg : String)
deriving DecidableEq

/-- A `BlobSidecar` as the store consumes it: the slot of its beacon block
header (`BeaconBlockHeader.GetSlot` / `SignedBeaconBlockHeader.Header.GetSlot`),
its KZG commitment (`KzgCommitment`, a `[48]byte` in Go), and the rest of the
payload (blob, proofs) which the store treats as opaque bytes. -/
structure BlobSidecar where
  headerSlot : Nat
  kzgCommitment : Bytes
  blob : Bytes
deriving DecidableEq

/-- Go's `[48]byte` commitment type invariant, as a predicate on the optional
(nilable) sidecars `Persist` receives: a non-nil sidecar's commitment has
exactly `COMMITMENT_SIZE` bytes. -/
def commitmentWF (o : Option BlobSidecar) : Bool :=
  match o with
  | none => true
  | some sc => sc.kzgCommitment.length == COMMITMENT_SIZE

/-- Modelled from the spec: the sidecar wire codec (`BlobSidecar.MarshalSSZ`
in `da/types`, delegated to the `karalabe/ssz` library) is not under `src/`;
the spec treats it as a black box required only to round-trip faithfully
(§6: "serialize(sidecar) → bytes" / "deserialize(bytes) → sidecar ...
requiring a faithful round trip").  It is modelled as a length-prefixed
flattening of the three fields. -/
def marshalSidecar (sc : BlobSidecar) : Bytes :=
  sc.headerSlot :: sc.kzgCommitment.length :: (sc.kzgCommitment ++ sc.blob)

/-- Modelled from the spec: inverse of `marshalSidecar`; fails (as the SSZ
library does) on input it cannot parse. -/
def unmarshalSidecar (bz : Bytes) : Except GoError BlobSidecar :=
  match bz with
  | h :: n :: rest => .ok ⟨h, rest.take n, rest.drop n⟩
  | _ => .error .decodeFailed

/-- The backing `IndexDB` contents: a map from (slot, key) to stored bytes.
The production backend is external (§6); an in-memory map is its faithful
sequential model for `Set`/`Get`. -/
abbrev DB := Nat → Bytes → Option Bytes

def emptyDB : DB := fun _ _ => none

/-- Backend `IndexDB.Set(slot, key, value)` on the map model (always succeeds). -/
def dbSet (db : DB) (slot : Nat) (key v : Bytes) : DB :=
  fun s k => if s = slot ∧ k = key then some v else db s k

/-- Backend `IndexDB.Get(slot, key)` on the map model: a missing key is reported as
an error (§6: "a missing key is reported as an error"). -/
def dbGet (db : DB) (slot : Nat) (key : Bytes) : Except DBErr Bytes :=
  match db slot key with
  | some v => .ok v
  | none => .error .notFound

/-- Function `Store.IsDataAvailable(ctx, slot, body)` (identical in both variants):
for each commitment in the block body, look it up with `IndexDB.Has`; return
false on the first lookup that errors or reports absence, true when the loop
completes.  The backend `Has` is abstract: any function returning a boolean
or an error. -/
def IsDataAvailable (has : Nat → Bytes → Except DBErr Bool) (slot : Nat) :
    List Bytes → Bool
  | [] => true
  | c :: rest =>
    match has slot c with
    | .ok true => IsDataAvailable has slot rest
    | _ => false

/-- Result of a `Persist` call. -/
inductive PersistRes where
  | ok
  | errNilSidecar
  | panicked
deriving DecidableEq

/-- A `Persist` call's outcome: the Go return value, the backend contents
afterwards, and the ordered trace of `IndexDB.Set` writes it issued (for the
second variant this is the canonical in-index-order completion; see
`Persist2WriteOrder` for the other admissible completion orders). -/
structure PersistOut where
  res : PersistRes
  db : DB
  writes : List (Bytes × Bytes)

/-- The per-sidecar storage phase shared by both `Persist` variants: walk the
sidecar list in input order; a nil entry stops the walk with no further
writes (`return ErrAttemptedToStoreNilSidecar`); a non-nil entry is
serialized and written at key (slot, commitment).  Returns the backend after
the issued writes, their trace, and `some` collected commitment list on
success or `none` when a nil entry was hit.  (On the in-memory backend `Set`
always succeeds and the modelled sidecar codec is total, so the
marshal-error and set-error returns of the Go loop cannot fire.) -/
def storeLoop (slot : Nat) :
    List (Option BlobSidecar) → DB → DB × List (Bytes × Bytes) × Option (List Bytes)
  | [], db => (db, [], some [])
  | none :: _, db => (db, [], none)
  | some sc :: rest, db =>
    let bz := marshalSidecar sc
    let r := storeLoop slot rest (dbSet db slot sc.kzgCommitment bz)
    (r.1, (sc.kzgCommitment, bz) :: r.2.1,
      Option.map (fun cs => sc.kzgCommitment :: cs) r.2.2)

/-- The slot-commitment index encoding, inlined in the second variant's
`Persist`: one count byte `byte(len(commitments))` followed by the
concatenated commitments. -/
def encodeSlotCommitments (comms : List Bytes) : Bytes :=
  (comms.length % 256) :: comms.flatten

/-- The in-bounds slicing loop of the second variant's `GetBlobsFromStore`:
`commitments[i] = b[1+48*i : 1+48*(i+1)]`, taken sequentially. -/
def decodeChunks : Nat → Bytes → List Bytes
  | 0, _ => []
  | k + 1, rest => rest.take COMMITMENT_SIZE :: decodeChunks k (rest.drop COMMITMENT_SIZE)

/-- The slot-commitment index decoding of the second variant's
`GetBlobsFromStore`: `numCommitments := int(b[0])`, then slice 48-byte chunks.
The code performs no bounds validation: `b[0]` on an empty record is a Go
index-out-of-range panic, and the first slice expression whose upper bound
exceeds the record length is a slice-bounds panic (which happens exactly when
the record is shorter than `1 + 48*count`). -/
def decodeSlotCommitments (bz : Bytes) : GoResult (List Bytes) :=
  match bz with
  | [] => .panicked "index out of range"
  | n :: rest =>
    if rest.length < COMMITMENT_SIZE * n then .panicked "slice bounds out of range"
    else .ok (decodeChunks n rest)

/-- Function `Store[...].Persist(slot, sidecars)` (second variant, `mod/` paths),
goroutine fan-out, modelled at its canonical schedule (goroutine writes taken
in index order; `Persist2WriteOrder` below relates the other admissible
orders).  An empty list is a successful no-op; the DA-period check
dereferences `sidecars.Sidecars[0]`, a nil first entry hence panics; a slot
outside the DA period is a successful no-op; otherwise the sidecars are
written, and on success the ordered commitment list is encoded and written
under the reserved `"slot_commitments"` key as the final write. -/
def Persist2 (withinDAPeriod : Nat → Nat → Bool) (slot : Nat)
    (sidecars : List (Option BlobSidecar)) (db : DB) : PersistOut :=
  match sidecars with
  | [] => ⟨.ok, db, []⟩
  | first :: _ =>
    match first with
    | none => ⟨.panicked, db, []⟩
    | some sc0 =>
      if withinDAPeriod sc0.headerSlot slot then
        let r := storeLoop slot sidecars db
        match r.2.2 with
        | none => ⟨.errNilSidecar, r.1, r.2.1⟩
        | some comms =>
          let ser := encodeSlotCommitments comms
          ⟨.ok, dbSet r.1 slot slotCommitmentsKey ser,
            r.2.1 ++ [(slotCommitmentsKey, ser)]⟩
      else ⟨.ok, db, []⟩

/-- Function `Store.Persist(slot, sidecars)` (first variant, flat paths): the same
early exits and the same strictly sequential per-sidecar loop, but the
function returns after the loop without ever writing a slot index record. -/
def Persist1 (withinDAPeriod : Nat → Nat → Bool) (slot : Nat)
    (sidecars : List (Option BlobSidecar)) (db : DB) : PersistOut :=
  match sidecars with
  | [] => ⟨.ok, db, []⟩
  | first :: _ =>
    match first with
    | none => ⟨.panicked, db, []⟩
    | some sc0 =>
      if withinDAPeriod sc0.headerSlot slot then
        let r := storeLoop slot sidecars db
        match r.2.2 with
        | none => ⟨.errNilSidecar, r.1, r.2.1⟩
        | some _ => ⟨.ok, r.1, r.2.1⟩
      else ⟨.ok, db, []⟩

/-- The per-commitment read fan-out of `GetBlobsFromStore` (both variants):
fetch each commitment's record and deserialize it; every task's result lands
at its own index so the output order matches the decoded index order; any
task's error makes the whole call fail (modelled at the canonical schedule:
the first error in index order is the one returned). -/
def fetchLoop (get : Nat → Bytes → Except DBErr Bytes) (slot : Nat) :
    List Bytes → Except GoError (List BlobSidecar)
  | [] => .ok []
  | c :: rest =>
    match get slot c with
    | .error e => .error (.dbErr e)
    | .ok bz =>
      match unmarshalSidecar bz with
      | .error e => .error e
      | .ok sc => (fetchLoop get slot rest).map (fun l => sc :: l)

/-- Function `Store[...].GetBlobsFromStore(slot)` (second variant): read the
`"slot_commitments"` record — ANY `Get` error yields an empty collection with
no error ("Return empty if not found") — then decode it by unchecked slicing
and fetch every listed commitment. -/
def GetBlobsFromStore2 (get : Nat → Bytes → Except DBErr Bytes) (slot : Nat) :
    GoResult (List BlobSidecar) :=
  match get slot slotCommitmentsKey with
  | .error _ => .ok []
  | .ok ser =>
    match decodeSlotCommitments ser with
    | .panicked msg => .panicked msg
    | .error e => .error e
    | .ok comms =>
      match fetchLoop get slot comms with
      | .error e => .error e
      | .ok scs => .ok scs

/-- Function `Store.GetBlobsFromStore(slot)` (first variant): identical shape, but the
index record is decoded with `SlotCommitments.UnmarshalSSZ`.  That SSZ codec
lives outside `src/`, so the decoder is a parameter; the claims settled
against this variant never reach it. -/
def GetBlobsFromStore1 (sszDecode : Bytes → Except GoError (List Bytes))
    (get : Nat → Bytes → Except DBErr Bytes) (slot : Nat) :
    GoResult (List BlobSidecar) :=
  match get slot slotCommitmentsKey with
  | .error _ => .ok []
  | .ok ser =>
    match sszDecode ser with
    | .error e => .error e
    | .ok comms =>
      match fetchLoop get slot comms with
      | .error e => .error e
      | .ok scs => .ok scs

/-- The per-sidecar write each spawned goroutine of the second variant's
`Persist` performs: `Set(slot, sc.KzgCommitment, sc.MarshalSSZ())`, listed in
input order. -/
def sidecarWrites (sidecars : List BlobSidecar) : List (Bytes × Bytes) :=
  sidecars.map (fun sc => (sc.kzgCommitment, marshalSidecar sc))

/-- The admissible completion orders of the second variant's per-sidecar
writes: the goroutines are all spawned before `wg.Wait()` and share no
synchronization with one another, so their `Set` calls may reach the backend
in any order — exactly the permutations of the input-order write list.  (The
index write, when it happens, is issued after `wg.Wait()` and so after all of
these.) -/
def Persist2WriteOrder (sidecars : List BlobSidecar) (ws : List (Bytes × Bytes)) : Prop :=
  ws.Perm (sidecarWrites sidecars)

/-- The backend contents after the storage phase of a successful `Persist`
call on all-non-nil sidecars (before the index write). -/
def storeAll (slot : Nat) (l : List BlobSidecar) (db : DB) : DB :=
  l.foldl (fun d sc => dbSet d slot sc.kzgCommitment (marshalSidecar sc)) db

/-! ### Concrete inputs used by counterexamples and witnesses -/

/-- A chain-spec stub whose `WithinDAPeriod` always reports true. -/
def wdaTrue : Nat → Nat → Bool := fun _ _ => true

/-- A 48-byte commitment of zero bytes. -/
def c48zero : Bytes := List.replicate 48 0

/-- A 48-byte commitment of one bytes. -/
def c48one : Bytes := List.replicate 48 1

/-- A sidecar at header slot 5 with the all-zero commitment and payload 1. -/
def scA : BlobSidecar := ⟨5, c48zero, [1]⟩

/-- A sidecar with the SAME commitment as `scA` but a different payload. -/
def scB : BlobSidecar := ⟨5, c48zero, [2]⟩

/-- A sidecar with a commitment distinct from `scA`'s. -/
def scC : BlobSidecar := ⟨5, c48one, [3]⟩

/-! ## Helper lemmas -/

theorem unmarshal_marshal (sc : BlobSidecar) :
    unmarshalSidecar (marshalSidecar sc) = .ok sc := by
  simp [marshalSidecar, unmarshalSidecar, List.take_left, List.drop_left]

theorem dbGet_set_same (db : DB) (slot : Nat) (key v : Bytes) :
    dbGet (dbSet db slot key v) slot key = .ok v := by
  simp [dbGet, dbSet]

theorem dbSet_other (db : DB) (slot : Nat) (key v : Bytes) (s : Nat) (k : Bytes)
    (h : ¬(s = slot ∧ k = key)) : dbSet db slot key v s k = db s k := by
  simp [dbSet, h]

theorem flatten_length_of_fixed (l : List Bytes) (n : Nat)
    (h : ∀ c ∈ l, c.length = n) : l.flatten.length = n * l.length := by
  induction l with
  | nil => simp
  | cons c tl ih =>
    have hc : c.length = n := h c (by simp)
    have htl : ∀ x ∈ tl, x.length = n := fun x hx => h x (by simp [hx])
    simp [List.flatten, hc, ih htl, Nat.mul_succ, Nat.add_comm]

theorem decodeChunks_flatten (l : List Bytes)
    (h : ∀ c ∈ l, c.length = COMMITMENT_SIZE) :
    decodeChunks l.length l.flatten = l := by
  induction l with
  | nil => simp [decodeChunks]
  | cons c tl ih =>
    have hc : c.length = COMMITMENT_SIZE := h c (by simp)
    have htl : ∀ x ∈ tl, x.length = COMMITMENT_SIZE := fun x hx => h x (by simp [hx])
    have htake : (c ++ tl.flatten).take COMMITMENT_SIZE = c := by
      rw [← hc]; exact List.take_left c tl.flatten
    have hdrop : (c ++ tl.flatten).drop COMMITMENT_SIZE = tl.flatten := by
      rw [← hc]; exact List.drop_left c tl.flatten
    simp [decodeChunks, htake, hdrop, ih htl]

/-- Round-trip of the slot-commitment index codec, for any list whose count
fits in the count byte and whose entries are commitment-sized. -/
theorem decode_encode_slotCommitments (l : List Bytes)
    (h48 : ∀ c ∈ l, c.length = COMMITMENT_SIZE) (hn : l.length < 256) :
    decodeSlotCommitments (encodeSlotCommitments l) = .ok l := by
  have hmod : l.length % 256 = l.length := Nat.mod_eq_of_lt hn
  have hflat : l.flatten.length = COMMITMENT_SIZE * l.length :=
    flatten_length_of_fixed l COMMITMENT_SIZE h48
  simp only [encodeSlotCommitments, decodeSlotCommitments, hmod, hflat]
  rw [if_neg (by omega)]
  rw [decodeChunks_flatten l h48]

/-- Lemma: `storeLoop` leaves every (slot, key) pair other than the written
commitment keys untouched. -/
theorem storeLoop_db_other (slot : Nat) (l : List (Option BlobSidecar)) (db : DB)
    (s : Nat) (k : Bytes)
    (h : ∀ sc : BlobSidecar, some sc ∈ l → k ≠ sc.kzgCommitment) :
    (storeLoop slot l db).1 s k = db s k := by
  induction l generalizing db with
  | nil => simp [storeLoop]
  | cons o tl ih =>
    cases o with
    | none => simp [storeLoop]
    | some sc =>
      have hk : k ≠ sc.kzgCommitment := h sc (by simp)
      have htl : ∀ x : BlobSidecar, some x ∈ tl → k ≠ x.kzgCommitment :=
        fun x hx => h x (by simp [hx])
      simp only [storeLoop]
      rw [ih _ htl]
      exact dbSet_other _ _ _ _ _ _ (fun hc => hk hc.2)

/-- A nil entry anywhere in the list makes `storeLoop` report failure. -/
theorem storeLoop_none_of_mem (slot : Nat) (l : List (Option BlobSidecar)) (db : DB)
    (h : none ∈ l) : (storeLoop slot l db).2.2 = none := by
  induction l generalizing db with
  | nil => simp at h
  | cons o tl ih =>
    cases o with
    | none => simp [storeLoop]
    | some sc =>
      have htl : none ∈ tl := by
        rcases List.mem_cons.mp h with h0 | h0
        · exact absurd h0.symm (by simp)
        · exact h0
      simp [storeLoop, ih _ htl]

/-- On an all-non-nil list, `storeLoop` stores every sidecar, traces the
writes in input order, and collects the commitments in input order. -/
theorem storeLoop_map_some (slot : Nat) (l : List BlobSidecar) (db : DB) :
    storeLoop slot (l.map some) db =
      (storeAll slot l db, sidecarWrites l, some (l.map BlobSidecar.kzgCommitment)) := by
  induction l generalizing db with
  | nil => simp [storeLoop, sidecarWrites, storeAll]
  | cons sc tl ih => simp [storeLoop, sidecarWrites, storeAll, ih]

theorem storeAll_other (slot : Nat) (l : List BlobSidecar) (db : DB)
    (s : Nat) (k : Bytes) (h : ∀ sc ∈ l, k ≠ sc.kzgCommitment) :
    storeAll slot l db s k = db s k := by
  induction l generalizing db with
  | nil => simp [storeAll]
  | cons a tl ih =>
    have ha : k ≠ a.kzgCommitment := h a (by simp)
    have htl : ∀ x ∈ tl, k ≠ x.kzgCommitment := fun x hx => h x (by simp [hx])
    simp only [storeAll, List.foldl_cons]
    rw [show (tl.foldl (fun d sc => dbSet d slot sc.kzgCommitment (marshalSidecar sc))
      (dbSet db slot a.kzgCommitment (marshalSidecar a))) s k =
      (dbSet db slot a.kzgCommitment (marshalSidecar a)) s k from ih _ htl]
    exact dbSet_other _ _ _ _ _ _ (fun hc => ha hc.2)

theorem storeAll_mem (slot : Nat) (l : List BlobSidecar) (db : DB)
    (hdup : (l.map BlobSidecar.kzgCommitment).Nodup) (sc : BlobSidecar) (hmem : sc ∈ l) :
    storeAll slot l db slot sc.kzgCommitment = some (marshalSidecar sc) := by
  induction l generalizing db with
  | nil => simp at hmem
  | cons a tl ih =>
    simp only [List.map_cons, List.nodup_cons] at hdup
    rcases List.mem_cons.mp hmem with h0 | h0
    · subst h0
      simp only [storeAll, List.foldl_cons]
      rw [show (tl.foldl (fun d x => dbSet d slot x.kzgCommitment (marshalSidecar x))
        (dbSet db slot sc.kzgCommitment (marshalSidecar sc))) slot sc.kzgCommitment =
        (dbSet db slot sc.kzgCommitment (marshalSidecar sc)) slot sc.kzgCommitment from
        storeAll_other slot tl _ slot sc.kzgCommitment
          (fun x hx he => hdup.1 (he ▸ List.mem_map_of_mem BlobSidecar.kzgCommitment hx))]
      simp [dbSet]
    · simpa [storeAll] using ih _ hdup.2 h0

theorem fetchLoop_roundtrip (get : Nat → Bytes → Except DBErr Bytes) (slot : Nat)
    (l : List BlobSidecar)
    (h : ∀ sc ∈ l, get slot sc.kzgCommitment = .ok (marshalSidecar sc)) :
    fetchLoop get slot (l.map BlobSidecar.kzgCommitment) = .ok l := by
  induction l with
  | nil => simp [fetchLoop]
  | cons sc tl ih =>
    have hsc : get slot sc.kzgCommitment = .ok (marshalSidecar sc) := h sc (by simp)
    have htl : ∀ x ∈ tl, get slot x.kzgCommitment = .ok (marshalSidecar x) :=
      fun x hx => h x (by simp [hx])
    simp [fetchLoop, hsc, unmarshal_marshal, ih htl, Except.map]

theorem slotCommitmentsKey_ne_commitment (k : Bytes) (h : k.length = COMMITMENT_SIZE) :
    slotCommitmentsKey ≠ k := by
  intro he
  rw [← he] at h
  simp [slotCommitmentsKey, COMMITMENT_SIZE] at h

/-! ## Claim theorems -/

/-- C1: `IsDataAvailable` returns true iff every commitment's backend
presence lookup at (slot, commitment) succeeds and reports the record
present; one absent commitment or one lookup error makes it false, and (by
its return type in this embedding, matching the error-free Go signature) the
function itself never returns an error, under any backend behaviour `has`. -/
theorem C1_isDataAvailable_iff (has : Nat → Bytes → Except DBErr Bool)
    (slot : Nat) (cs : List Bytes) :
    IsDataAvailable has slot cs = true ↔ ∀ c ∈ cs, has slot c = .ok true := by
  induction cs with
  | nil => simp [IsDataAvailable]
  | cons c rest ih =>
    cases h : has slot c with
    | ok b =>
      cases b with
      | true => simp [IsDataAvailable, h, ih]
      | false =>
        simp only [IsDataAvailable, h]
        constructor
        · intro hf; cases hf
        · intro hall
          have := hall c (by simp)
          rw [h] at this
          cases this
    | error e =>
      simp only [IsDataAvailable, h]
      constructor
      · intro hf; cases hf
      · intro hall
        have := hall c (by simp)
        rw [h] at this
        cases this

/-- C6: for every ordered list of 0 to 6 commitments of exactly 48 bytes,
decoding the codec's encoding (one count byte followed by the concatenated
48-byte entries) yields the original list. -/
theorem C6_codec_roundtrip (l : List Bytes) (h6 : l.length ≤ 6)
    (h48 : ∀ c ∈ l, c.length = COMMITMENT_SIZE) :
    decodeSlotCommitments (encodeSlotCommitments l) = .ok l :=
  decode_encode_slotCommitments l h48 (by omega)

theorem C6_witness :
    ([c48zero, c48one].length ≤ 6 ∧ ∀ c ∈ [c48zero, c48one], c.length = COMMITMENT_SIZE) ∧
    decodeSlotCommitments (encodeSlotCommitments [c48zero, c48one]) = .ok [c48zero, c48one] :=
  ⟨by decide, C6_codec_roundtrip [c48zero, c48one] (by decide) (by decide)⟩

/-- C8: a slot whose reserved index key is absent from the backend yields an
empty collection and no error from `GetBlobsFromStore`, in both variants. -/
theorem C8_unknown_slot_empty (db : DB) (slot : Nat)
    (sszDecode : Bytes → Except GoError (List Bytes))
    (h : db slot slotCommitmentsKey = none) :
    GetBlobsFromStore2 (dbGet db) slot = .ok [] ∧
    GetBlobsFromStore1 sszDecode (dbGet db) slot = .ok [] := by
  have hg : dbGet db slot slotCommitmentsKey = .error .notFound := by
    simp [dbGet, h]
  exact ⟨by simp [GetBlobsFromStore2, hg], by simp [GetBlobsFromStore1, hg]⟩

theorem C8_witness :
    emptyDB 4 slotCommitmentsKey = none ∧
    GetBlobsFromStore2 (dbGet emptyDB) 4 = .ok [] ∧
    GetBlobsFromStore1 (fun _ => .error .decodeFailed) (dbGet emptyDB) 4 = .ok [] :=
  ⟨rfl,
   (C8_unknown_slot_empty emptyDB 4 (fun _ => .error .decodeFailed) rfl).1,
   (C8_unknown_slot_empty emptyDB 4 (fun _ => .error .decodeFailed) rfl).2⟩

/-- C10: if the backend read of the reserved index key fails with ANY error
— an I/O fault as much as a not-found — `GetBlobsFromStore` (both variants)
returns an empty collection and no error, so a faulting backend is
indistinguishable at this interface from a never-persisted slot. -/
theorem C10_any_get_error_empty (get : Nat → Bytes → Except DBErr Bytes)
    (slot : Nat) (e : DBErr)
    (sszDecode : Bytes → Except GoError (List Bytes))
    (h : get slot slotCommitmentsKey = .error e) :
    GetBlobsFromStore2 get slot = .ok [] ∧
    GetBlobsFromStore1 sszDecode get slot = .ok [] :=
  ⟨by simp [GetBlobsFromStore2, h], by simp [GetBlobsFromStore1, h]⟩

theorem C10_witness :
    (fun _ _ => Except.error (DBErr.ioFault 7) : Nat → Bytes → Except DBErr Bytes)
        9 slotCommitmentsKey = .error (.ioFault 7) ∧
    GetBlobsFromStore2 (fun _ _ => .error (.ioFault 7)) 9 = .ok [] ∧
    GetBlobsFromStore1 (fun _ => .error .decodeFailed) (fun _ _ => .error (.ioFault 7)) 9 = .ok [] :=
  ⟨rfl,
   (C10_any_get_error_empty (fun _ _ => .error (.ioFault 7)) 9 (.ioFault 7)
     (fun _ => .error .decodeFailed) rfl).1,
   (C10_any_get_error_empty (fun _ _ => .error (.ioFault 7)) 9 (.ioFault 7)
     (fun _ => .error .decodeFailed) rfl).2⟩

/-- C9: a non-empty sidecar list whose first sidecar's block-header slot lies
outside the DA retention window makes `Persist` (both variants) return
success with no backend writes at all. -/
theorem C9_outside_da_no_writes (wda : Nat → Nat → Bool) (slot : Nat) (db : DB)
    (sc0 : BlobSidecar) (rest : List (Option BlobSidecar))
    (hda : wda sc0.headerSlot slot = false) :
    Persist2 wda slot (some sc0 :: rest) db = ⟨.ok, db, []⟩ ∧
    Persist1 wda slot (some sc0 :: rest) db = ⟨.ok, db, []⟩ :=
  ⟨by simp [Persist2, hda], by simp [Persist1, hda]⟩

theorem C9_witness :
    (fun _ _ => false : Nat → Nat → Bool) scA.headerSlot 3 = false ∧
    Persist2 (fun _ _ => false) 3 [some scA] emptyDB = ⟨.ok, emptyDB, []⟩ ∧
    Persist1 (fun _ _ => false) 3 [some scA] emptyDB = ⟨.ok, emptyDB, []⟩ :=
  ⟨rfl,
   (C9_outside_da_no_writes (fun _ _ => false) 3 emptyDB scA [] rfl).1,
   (C9_outside_da_no_writes (fun _ _ => false) 3 emptyDB scA [] rfl).2⟩

/-- C7: `Persist` on a list containing a nil entry (preceding entries
non-nil, DA check passing — so the first entry, which the DA check
dereferences, is non-nil) returns the nil-sidecar error and writes no index
record under the reserved key for that slot, in both variants; records for
preceding sidecars may already have been written (the backend and trace are
left unconstrained apart from the index key). -/
theorem C7_nil_entry_no_index (wda : Nat → Nat → Bool) (slot : Nat) (db : DB)
    (sc0 : BlobSidecar) (rest : List (Option BlobSidecar))
    (hda : wda sc0.headerSlot slot = true)
    (hnil : none ∈ rest)
    (hwf : ∀ o ∈ (some sc0 :: rest), commitmentWF o = true) :
    ((Persist2 wda slot (some sc0 :: rest) db).res = .errNilSidecar ∧
      (Persist2 wda slot (some sc0 :: rest) db).db slot slotCommitmentsKey
        = db slot slotCommitmentsKey) ∧
    ((Persist1 wda slot (some sc0 :: rest) db).res = .errNilSidecar ∧
      (Persist1 wda slot (some sc0 :: rest) db).db slot slotCommitmentsKey
        = db slot slotCommitmentsKey) := by
  have hc : (storeLoop slot (some sc0 :: rest) db).2.2 = none :=
    storeLoop_none_of_mem slot _ db (by simp [hnil])
  have hpres : (storeLoop slot (some sc0 :: rest) db).1 slot slotCommitmentsKey
      = db slot slotCommitmentsKey := by
    refine storeLoop_db_other slot _ db slot slotCommitmentsKey ?_
    intro sc hsc
    refine slotCommitmentsKey_ne_commitment sc.kzgCommitment ?_
    have := hwf (some sc) hsc
    simpa [commitmentWF] using this
  constructor
  · constructor
    · simp [Persist2, hda, hc]
    · simp [Persist2, hda, hc, hpres]
  · constructor
    · simp [Persist1, hda, hc]
    · simp [Persist1, hda, hc, hpres]

theorem C7_witness :
    (wdaTrue scA.headerSlot 7 = true ∧ none ∈ [some scC, none] ∧
      ∀ o ∈ [some scA, some scC, none], commitmentWF o = true) ∧
    (Persist2 wdaTrue 7 [some scA, some scC, none] emptyDB).res = .errNilSidecar ∧
    (Persist2 wdaTrue 7 [some scA, some scC, none] emptyDB).db 7 slotCommitmentsKey
      = emptyDB 7 slotCommitmentsKey ∧
    (Persist1 wdaTrue 7 [some scA, some scC, none] emptyDB).res = .errNilSidecar ∧
    (Persist1 wdaTrue 7 [some scA, some scC, none] emptyDB).db 7 slotCommitmentsKey
      = emptyDB 7 slotCommitmentsKey :=
  ⟨⟨rfl, by decide, by decide⟩,
    (C7_nil_entry_no_index wdaTrue 7 emptyDB scA [some scC, none] rfl (by decide) (by decide)).1.1,
    (C7_nil_entry_no_index wdaTrue 7 emptyDB scA [some scC, none] rfl (by decide) (by decide)).1.2,
    (C7_nil_entry_no_index wdaTrue 7 emptyDB scA [some scC, none] rfl (by decide) (by decide)).2.1,
    (C7_nil_entry_no_index wdaTrue 7 emptyDB scA [some scC, none] rfl (by decide) (by decide)).2.2⟩

/-- C2 (amended): for 1 to 6 non-nil sidecars sharing a header slot inside
the DA retention window, with PAIRWISE DISTINCT commitments, running the
second variant's `Persist` against an initially empty backend and then its
`GetBlobsFromStore` returns exactly the input list, in input order (equality
of the whole sidecars, hence by commitment and payload). -/
theorem C2_roundtrip (wda : Nat → Nat → Bool) (slot islot : Nat)
    (l : List BlobSidecar)
    (hne : l ≠ []) (h6 : l.length ≤ 6)
    (h48 : ∀ sc ∈ l, sc.kzgCommitment.length = COMMITMENT_SIZE)
    (hdup : (l.map BlobSidecar.kzgCommitment).Nodup)
    (hslot : ∀ sc ∈ l, sc.headerSlot = islot)
    (hda : wda islot slot = true) :
    GetBlobsFromStore2 (dbGet (Persist2 wda slot (l.map some) emptyDB).db) slot
      = .ok l := by
  obtain ⟨sc0, tl, rfl⟩ : ∃ sc0 tl, l = sc0 :: tl := by
    cases l with
    | nil => exact absurd rfl hne
    | cons a b => exact ⟨a, b, rfl⟩
  set l := sc0 :: tl with hl
  have hda0 : wda sc0.headerSlot slot = true := by
    rw [hslot sc0 (by simp [hl])]; exact hda
  have hmap : l.map some = some sc0 :: tl.map some := by simp [hl]
  have hcomms48 : ∀ c ∈ l.map BlobSidecar.kzgCommitment, c.length = COMMITMENT_SIZE := by
    intro c hc
    obtain ⟨sc, hsc, rfl⟩ := List.mem_map.mp hc
    exact h48 sc hsc
  have hstore := storeLoop_map_some slot l emptyDB
  have hpersist : (Persist2 wda slot (l.map some) emptyDB).db
      = dbSet (storeAll slot l emptyDB) slot slotCommitmentsKey
          (encodeSlotCommitments (l.map BlobSidecar.kzgCommitment)) := by
    rw [hmap] at hstore ⊢
    simp [Persist2, hda0, hstore]
  rw [hpersist]
  have hidx : dbGet (dbSet (storeAll slot l emptyDB) slot slotCommitmentsKey
      (encodeSlotCommitments (l.map BlobSidecar.kzgCommitment))) slot slotCommitmentsKey
      = .ok (encodeSlotCommitments (l.map BlobSidecar.kzgCommitment)) :=
    dbGet_set_same _ _ _ _
  have hdec : decodeSlotCommitments
      (encodeSlotCommitments (l.map BlobSidecar.kzgCommitment))
      = .ok (l.map BlobSidecar.kzgCommitment) := by
    refine decode_encode_slotCommitments _ hcomms48 ?_
    rw [List.length_map]
    omega
  have hfetch : fetchLoop (dbGet (dbSet (storeAll slot l emptyDB) slot slotCommitmentsKey
      (encodeSlotCommitments (l.map BlobSidecar.kzgCommitment)))) slot
      (l.map BlobSidecar.kzgCommitment) = .ok l := by
    refine fetchLoop_roundtrip _ slot l ?_
    intro sc hsc
    have hkne : slotCommitmentsKey ≠ sc.kzgCommitment :=
      slotCommitmentsKey_ne_commitment _ (h48 sc hsc)
    have h1 : dbSet (storeAll slot l emptyDB) slot slotCommitmentsKey
        (encodeSlotCommitments (l.map BlobSidecar.kzgCommitment)) slot sc.kzgCommitment
        = storeAll slot l emptyDB slot sc.kzgCommitment :=
      dbSet_other _ _ _ _ _ _ (fun hc => hkne hc.2.symm)
    have h2 : storeAll slot l emptyDB slot sc.kzgCommitment = some (marshalSidecar sc) :=
      storeAll_mem slot l emptyDB hdup sc hsc
    simp [dbGet, h1, h2]
  simp [GetBlobsFromStore2, hidx, hdec, hfetch]

theorem C2_roundtrip_witness :
    ([scA, scC] ≠ ([] : List BlobSidecar) ∧ [scA, scC].length ≤ 6 ∧
      (∀ sc ∈ [scA, scC], sc.kzgCommitment.length = COMMITMENT_SIZE) ∧
      ([scA, scC].map BlobSidecar.kzgCommitment).Nodup ∧
      (∀ sc ∈ [scA, scC], sc.headerSlot = 5) ∧ wdaTrue 5 11 = true) ∧
    GetBlobsFromStore2 (dbGet (Persist2 wdaTrue 11 ([scA, scC].map some) emptyDB).db) 11
      = .ok [scA, scC] :=
  ⟨⟨by decide, by decide, by decide, by decide, by decide, rfl⟩,
   C2_roundtrip wdaTrue 11 5 [scA, scC] (by decide) (by decide) (by decide)
     (by decide) (by decide) rfl⟩

/-- C2 (counterexample): the claim as stated quantifies over EVERY list of
1-6 non-nil sidecars sharing a slot, without requiring distinct commitments.
`scA` and `scB` share the all-zero commitment with different payloads; the
later write overwrites the earlier record at (slot, commitment), so the
retrieval returns `scB` at both positions — not the input list. -/
theorem C2_counterexample :
    GetBlobsFromStore2 (dbGet (Persist2 wdaTrue 7 [some scA, some scB] emptyDB).db) 7
      = .ok [scB, scB] ∧
    GoResult.ok [scB, scB] ≠ GoResult.ok [scA, scB] := by
  constructor
  · rfl
  · decide

/-- C3: the first variant's `Persist` (flat paths) returns success after the
sequential per-sidecar loop WITHOUT ever writing the ordered commitment list
under the reserved `"slot_commitments"` key — no write of the call touches
that key — even though its own `GetBlobsFromStore` reads that key, which
therefore finds nothing for the slot just persisted.  (The second variant
does write the index last; the first variant's omission is the code bug this
theorem exhibits at a concrete input.) -/
theorem C3_variant1_never_writes_index :
    (Persist1 wdaTrue 7 [some scA] emptyDB).res = .ok ∧
    (Persist1 wdaTrue 7 [some scA] emptyDB).writes = [(c48zero, marshalSidecar scA)] ∧
    (Persist1 wdaTrue 7 [some scA] emptyDB).db 7 slotCommitmentsKey = none ∧
    ∀ sszDecode : Bytes → Except GoError (List Bytes),
      GetBlobsFromStore1 sszDecode (dbGet (Persist1 wdaTrue 7 [some scA] emptyDB).db) 7
        = .ok [] := by
  refine ⟨rfl, rfl, by decide, ?_⟩
  intro sszDecode
  rfl

/-- C4: the second variant's `Persist` spawns one goroutine per sidecar with
no ordering between their `Set` calls, so the per-sidecar writes may reach
the backend in any permutation of input order: here the reversed order of
two distinct writes is an admissible completion order and differs from the
input order, refuting "issued strictly sequentially, in exact input-list
order" for that variant.  The third conjunct ties the write multiset to
`Persist2`: its canonical trace is exactly these per-sidecar writes followed
by the index write. -/
theorem C4_variant2_writes_unordered :
    Persist2WriteOrder [scA, scC]
      [(c48one, marshalSidecar scC), (c48zero, marshalSidecar scA)] ∧
    [(c48one, marshalSidecar scC), (c48zero, marshalSidecar scA)]
      ≠ sidecarWrites [scA, scC] ∧
    (Persist2 wdaTrue 7 [some scA, some scC] emptyDB).writes
      = sidecarWrites [scA, scC]
        ++ [(slotCommitmentsKey, encodeSlotCommitments [c48zero, c48one])] := by
  refine ⟨?_, by decide, by rfl⟩
  show List.Perm _ _
  have : sidecarWrites [scA, scC]
      = [(c48zero, marshalSidecar scA), (c48one, marshalSidecar scC)] := rfl
  rw [this]
  exact List.Perm.swap _ _ _

/-- C5: the second variant's `GetBlobsFromStore` decodes the stored index
record with NO bounds validation: on an empty record, `b[0]` is a Go
index-out-of-range panic, and on a record shorter than `1 + 48*count` the
slicing loop is a slice-bounds panic — the call crashes instead of returning
a decode error.  Evaluated here at a slot whose stored index record is the
single byte 0x02. -/
theorem C5_variant2_malformed_index_panics :
    decodeSlotCommitments [] = .panicked "index out of range" ∧
    decodeSlotCommitments [2] = .panicked "slice bounds out of range" ∧
    GetBlobsFromStore2 (dbGet (dbSet emptyDB 7 slotCommitmentsKey [2])) 7
      = .panicked "slice bounds out of range" := by
  refine ⟨rfl, rfl, ?_⟩
  rfl
